import Mathlib

/-! Formal model of the Typify caching and request-orchestration core:
    `services/cache_service.py`, `services/text_processors.py` and the
    generation defaults of `config.py`.

    Modelling conventions.  Python strings are sequences of Unicode code
    points, modelled as `List Nat`; `str.lower` and `str.strip` are
    modelled on the ASCII range.  Python `time.time()` instants are
    abstract `Nat` clock values supplied by the caller, and measured
    wall-clock durations are rationals.  A Python `dict` (which preserves
    insertion order, keeps the position of an overwritten key, and holds
    distinct keys) is modelled as an association list.  Each `LRUCache`
    method body runs under the instance lock, so the model is the
    sequential semantics of the locked bodies. -/

/-- Model of a Python string: its sequence of Unicode code points. -/
abbrev PyStr := List Nat

/-- Code points of a Lean string literal, for writing concrete Python strings. -/
def pyStr (s : String) : PyStr := s.data.map Char.toNat

/-- ASCII model of Python `str.lower` on one code point. -/
def lowerCp (c : Nat) : Nat := if 65 ≤ c ∧ c ≤ 90 then c + 32 else c

/-- Model of Python `str.lower`. -/
def pyLower (s : PyStr) : PyStr := s.map lowerCp

/-- ASCII whitespace code points removed by Python `str.strip()`:
    space, tab, newline, carriage return, vertical tab, form feed. -/
def isWsCp (c : Nat) : Bool := decide (c = 32 ∨ c = 9 ∨ c = 10 ∨ c = 13 ∨ c = 11 ∨ c = 12)

/-- Model of Python `str.strip()`: drop whitespace from both ends. -/
def pyStrip (s : PyStr) : PyStr := ((s.dropWhile isWsCp).reverse.dropWhile isWsCp).reverse

/-- Python truthiness of an `Optional[str]` value: `None` and `""` are falsy. -/
def pyTruthy : Option PyStr → Bool
  | none => false
  | some v => !v.isEmpty

/-- Structure `CacheEntry` of `cache_service.py`: a cached value plus
    access metadata. -/
structure CacheEntry (T : Type) where
  value : T
  created_at : Nat
  access_count : Nat
  last_accessed : Nat
deriving DecidableEq

variable {T : Type}

/-- Construction `CacheEntry(value)` at instant `now`: `created_at` and
    `last_accessed` default to the current time, `access_count` to zero. -/
def CacheEntry.init (v : T) (now : Nat) : CacheEntry T :=
  { value := v, created_at := now, access_count := 0, last_accessed := now }

/-- Method `CacheEntry.access`: bump the access count, refresh
    `last_accessed`, and return the value together with the updated entry
    (the Python method mutates the entry in place). -/
def CacheEntry.access (e : CacheEntry T) (now : Nat) : T × CacheEntry T :=
  (e.value, { e with access_count := e.access_count + 1, last_accessed := now })

/-- Lookup in the insertion-ordered map: Python `dict[key]` and `key in dict`. -/
def dictGet : List (PyStr × CacheEntry T) → PyStr → Option (CacheEntry T)
  | [], _ => none
  | (k', e) :: rest, k => if k' = k then some e else dictGet rest k

/-- Assignment `dict[key] = value`: overwrite in place when the key is
    present (keeping its position), otherwise append at the end. -/
def dictSet : List (PyStr × CacheEntry T) → PyStr → CacheEntry T → List (PyStr × CacheEntry T)
  | [], k, e => [(k, e)]
  | (k', e') :: rest, k, e => if k' = k then (k, e) :: rest else (k', e') :: dictSet rest k e

/-- Deletion `del dict[key]`: remove the entry holding the key. -/
def dictDel : List (PyStr × CacheEntry T) → PyStr → List (PyStr × CacheEntry T)
  | [], _ => []
  | (k', e') :: rest, k => if k' = k then rest else (k', e') :: dictDel rest k

/-- Keys of the map, in insertion order. -/
def keysOf (m : List (PyStr × CacheEntry T)) : List PyStr := m.map Prod.fst

/-- Key distinctness, automatic for a Python dict. -/
def NodupKeys (m : List (PyStr × CacheEntry T)) : Prop := (keysOf m).Nodup

instance (m : List (PyStr × CacheEntry T)) : Decidable (NodupKeys m) := by
  unfold NodupKeys; infer_instance

/-- Class `LRUCache` of `cache_service.py`: the size bound, the eviction
    batch size, and the underlying insertion-ordered map. -/
structure LRUCache (T : Type) where
  max_size : Nat
  cleanup_batch_size : Nat
  cache : List (PyStr × CacheEntry T)
deriving DecidableEq

/-- Comparison used by the sort in `_cleanup`:
    `key=lambda item: item[1].last_accessed`. -/
def entryLE (a b : PyStr × CacheEntry T) : Prop := a.2.last_accessed ≤ b.2.last_accessed

instance : DecidableRel (entryLE (T := T)) := fun a b => Nat.decLe _ _

instance : IsTotal (PyStr × CacheEntry T) entryLE := ⟨fun a b => Nat.le_total _ _⟩

instance : IsTrans (PyStr × CacheEntry T) entryLE := ⟨fun _ _ _ => Nat.le_trans⟩

/-- Method `LRUCache._cleanup`: skip when the map holds fewer than
    `cleanup_batch_size` entries; otherwise sort the items by
    `last_accessed` (Python's `sorted` is stable, as is insertion sort)
    and delete the keys of the first `cleanup_batch_size` items. -/
def LRUCache.cleanup (c : LRUCache T) : LRUCache T :=
  if c.cache.length < c.cleanup_batch_size then c
  else
    let sorted_entries := List.insertionSort entryLE c.cache
    { c with
      cache := (sorted_entries.take c.cleanup_batch_size).foldl (fun m p => dictDel m p.1) c.cache }

/-- Method `LRUCache.get` at instant `now`: on a hit return
    `entry.access()` and the map with the refreshed entry; on a miss
    return `None` and leave the map untouched. -/
def LRUCache.get (c : LRUCache T) (key : PyStr) (now : Nat) : Option T × LRUCache T :=
  match dictGet c.cache key with
  | some e => (some (e.access now).1, { c with cache := dictSet c.cache key (e.access now).2 })
  | none => (none, c)

/-- Method `LRUCache.put` at instant `now`: run `_cleanup` when the map
    already holds at least `max_size` entries, then insert a fresh entry
    for the key. -/
def LRUCache.put (c : LRUCache T) (key : PyStr) (value : T) (now : Nat) : LRUCache T :=
  let c' := if c.max_size ≤ c.cache.length then c.cleanup else c
  { c' with cache := dictSet c'.cache key (CacheEntry.init value now) }

/-- Method `LRUCache.contains`. -/
def LRUCache.contains (c : LRUCache T) (key : PyStr) : Bool := (dictGet c.cache key).isSome

/-- Method `LRUCache.size`. -/
def LRUCache.size (c : LRUCache T) : Nat := c.cache.length

/-- Method `LRUCache.clear`. -/
def LRUCache.clear (c : LRUCache T) : LRUCache T := { c with cache := [] }

/-- A cache as constructed by `LRUCache(max_size, cleanup_batch_size)`. -/
def LRUCache.empty (max_size cleanup_batch_size : Nat) : LRUCache T :=
  { max_size := max_size, cleanup_batch_size := cleanup_batch_size, cache := [] }

/-- A sequence of `put` calls; each element carries key, value, instant. -/
def LRUCache.runPuts (c : LRUCache T) (ops : List (PyStr × T × Nat)) : LRUCache T :=
  ops.foldl (fun a op => a.put op.1 op.2.1 op.2.2) c

/-- Method `CacheService._normalize_key`: `text.strip().lower()`. -/
def normalize_key (text : PyStr) : PyStr := pyLower (pyStrip text)

/-- Cache key built by `CacheService.get_tone_change` and
    `CacheService.cache_tone_change` — the tone-namespaced
    `f"{normalized}_{tone}"`; code point 95 is the underscore. -/
def toneKey (text tone : PyStr) : PyStr := normalize_key text ++ [95] ++ tone

/-- Structure `GenerationConfig` of `config.py` with its default field
    values; rationals stand for the source's float literals. -/
structure GenerationConfig where
  grammar_max_tokens_multiplier : Nat := 4
  grammar_min_tokens : Nat := 100
  grammar_temperature : ℚ := 3/10
  grammar_top_p : ℚ := 9/10
  grammar_top_k : Nat := 40
  grammar_repeat_penalty : ℚ := 105/100
  summary_max_tokens : Nat := 200
  summary_min_tokens : Nat := 100
  summary_temperature : ℚ := 2/10
  summary_top_p : ℚ := 8/10
  summary_top_k : Nat := 40
  summary_repeat_penalty : ℚ := 105/100
  tone_max_tokens_multiplier : Nat := 2
  tone_min_tokens : Nat := 150
  tone_temperature : ℚ := 2/10
  tone_top_p : ℚ := 9/10
  tone_top_k : Nat := 40
  tone_repeat_penalty : ℚ := 105/100
deriving DecidableEq

/-- Defaults of `GenerationConfig`, as instantiated by `AppConfig`. -/
def defaultGenerationConfig : GenerationConfig := {}

/-- Dataclass `TextProcessingResult` of `llm_interface.py`.  The optional
    `metadata` dict is modelled by its two possible fields; `none` means
    the field (or the whole dict) is absent. -/
structure TextProcessingResult where
  processed_text : PyStr
  original_text : PyStr
  processing_time : ℚ
  success : Bool
  error_message : Option PyStr
  from_cache : Option Bool
  target_tone : Option PyStr
deriving DecidableEq

/-- Method `BaseTextProcessor._create_error_result`. -/
def create_error_result (text msg : PyStr) : TextProcessingResult :=
  { processed_text := text, original_text := text, processing_time := 0,
    success := false, error_message := some msg, from_cache := none, target_tone := none }

/-- Parts of the provider's reply dict read by the processors: the
    `success` flag, `response['choices'][0]['text']` on success, and
    `error` on failure. -/
structure ProviderResponse where
  success : Bool
  text : PyStr
  error : PyStr
deriving DecidableEq

/-- Behaviour of one `generate_response` call: the provider either raises
    an exception with message `msg` (caught by the processor's
    `except Exception` handler, which stores `str(e)`) or returns a reply
    dict. -/
inductive GenOutcome where
  | raises (msg : PyStr)
  | answers (resp : ProviderResponse)
deriving DecidableEq

/-- Inference provider as seen through `ILLMProvider`: the `is_loaded()`
    flag plus the behaviour of the at most one `generate_response` call a
    single processor invocation makes. -/
structure Provider where
  loaded : Bool
  outcome : GenOutcome
deriving DecidableEq

/-- Sampling parameters of one recorded `generate_response` call. -/
structure GenCall where
  max_tokens : Nat
  temperature : ℚ
  top_p : ℚ
  top_k : Nat
  repeat_penalty : ℚ
deriving DecidableEq

/-- Observable outcome of one processor invocation: the returned
    `TextProcessingResult`, the state of the operation's cache afterwards,
    and the list of `generate_response` calls that were made. -/
structure ProcOutcome where
  result : TextProcessingResult
  cache : LRUCache PyStr
  calls : List GenCall
deriving DecidableEq

/-- Method `BaseTextProcessor._validate_input`: `bool(text and text.strip())`. -/
def validate_input (text : PyStr) : Bool := !(pyStrip text).isEmpty

/-- Response-length guard `len(out) < len(text) * 0.3` used by grammar
    correction and tone change.  The source compares against the IEEE
    double `0.3`; for all realistic lengths this agrees with the exact
    rational comparison, stated here in integers (see
    `belowMinLength_iff_rat`). -/
def belowMinLength (out text : PyStr) : Bool := decide (10 * out.length < 3 * text.length)

/-- Call made by `GrammarCorrector.fix_grammar`:
    `max_tokens=max(grammar_min_tokens, len(text) * grammar_max_tokens_multiplier)`. -/
def grammarCall (cfg : GenerationConfig) (text : PyStr) : GenCall :=
  { max_tokens := max cfg.grammar_min_tokens (text.length * cfg.grammar_max_tokens_multiplier),
    temperature := cfg.grammar_temperature, top_p := cfg.grammar_top_p,
    top_k := cfg.grammar_top_k, repeat_penalty := cfg.grammar_repeat_penalty }

/-- Try-block of `fix_grammar` after a cache miss: invoke the provider,
    validate the stripped reply, cache on success.  The value `elapsed`
    stands for the measured `time.time() - start_time`. -/
def grammarGenerate (cfg : GenerationConfig) (provider : Provider) (cache : LRUCache PyStr)
    (text : PyStr) (now : Nat) (elapsed : ℚ) : ProcOutcome :=
  match provider.outcome with
  | .raises msg => ⟨create_error_result text msg, cache, [grammarCall cfg text]⟩
  | .answers resp =>
    if !resp.success then
      ⟨create_error_result text resp.error, cache, [grammarCall cfg text]⟩
    else
      let corrected_text := pyStrip resp.text
      if corrected_text.isEmpty || belowMinLength corrected_text text then
        ⟨create_error_result text (pyStr "Invalid response from model"), cache, [grammarCall cfg text]⟩
      else
        ⟨{ processed_text := corrected_text, original_text := text, processing_time := elapsed,
           success := true, error_message := none, from_cache := some false, target_tone := none },
         cache.put (normalize_key text) corrected_text now, [grammarCall cfg text]⟩

/-- Method `GrammarCorrector.fix_grammar`, with `cache` the state of the
    service's `grammar_cache`. -/
def fix_grammar (cfg : GenerationConfig) (provider : Provider) (cache : LRUCache PyStr)
    (text : PyStr) (now : Nat) (elapsed : ℚ) : ProcOutcome :=
  if !validate_input text then
    ⟨create_error_result text (pyStr "Invalid input text"), cache, []⟩
  else if !provider.loaded then
    ⟨create_error_result text (pyStr "Grammar corrector not available"), cache, []⟩
  else
    let looked := cache.get (normalize_key text) now
    if pyTruthy looked.1 then
      ⟨{ processed_text := looked.1.getD [], original_text := text, processing_time := 0,
         success := true, error_message := none, from_cache := some true, target_tone := none },
       looked.2, []⟩
    else
      grammarGenerate cfg provider looked.2 text now elapsed

/-- Call made by `TextSummarizer.summarize`:
    `max_tokens=min(summary_max_tokens, max(summary_min_tokens, len(text)))`. -/
def summaryCall (cfg : GenerationConfig) (text : PyStr) : GenCall :=
  { max_tokens := min cfg.summary_max_tokens (max cfg.summary_min_tokens text.length),
    temperature := cfg.summary_temperature, top_p := cfg.summary_top_p,
    top_k := cfg.summary_top_k, repeat_penalty := cfg.summary_repeat_penalty }

/-- Try-block of `summarize` after a cache miss: only an empty (stripped)
    reply is rejected. -/
def summaryGenerate (cfg : GenerationConfig) (provider : Provider) (cache : LRUCache PyStr)
    (text : PyStr) (now : Nat) (elapsed : ℚ) : ProcOutcome :=
  match provider.outcome with
  | .raises msg => ⟨create_error_result text msg, cache, [summaryCall cfg text]⟩
  | .answers resp =>
    if !resp.success then
      ⟨create_error_result text resp.error, cache, [summaryCall cfg text]⟩
    else
      let summary_text := pyStrip resp.text
      if summary_text.isEmpty then
        ⟨create_error_result text (pyStr "Empty summary response"), cache, [summaryCall cfg text]⟩
      else
        ⟨{ processed_text := summary_text, original_text := text, processing_time := elapsed,
           success := true, error_message := none, from_cache := some false, target_tone := none },
         cache.put (normalize_key text) summary_text now, [summaryCall cfg text]⟩

/-- Method `TextSummarizer.summarize`, with `cache` the state of the
    service's `summary_cache`. -/
def summarize (cfg : GenerationConfig) (provider : Provider) (cache : LRUCache PyStr)
    (text : PyStr) (now : Nat) (elapsed : ℚ) : ProcOutcome :=
  if !validate_input text then
    ⟨create_error_result text (pyStr "Invalid input text"), cache, []⟩
  else if !provider.loaded then
    ⟨create_error_result text (pyStr "Text summarizer not available"), cache, []⟩
  else
    let looked := cache.get (normalize_key text) now
    if pyTruthy looked.1 then
      ⟨{ processed_text := looked.1.getD [], original_text := text, processing_time := 0,
         success := true, error_message := none, from_cache := some true, target_tone := none },
       looked.2, []⟩
    else
      summaryGenerate cfg provider looked.2 text now elapsed

/-- Call made by `ToneChanger.change_tone`:
    `max_tokens=max(tone_min_tokens, len(text) * tone_max_tokens_multiplier)`. -/
def toneCall (cfg : GenerationConfig) (text : PyStr) : GenCall :=
  { max_tokens := max cfg.tone_min_tokens (text.length * cfg.tone_max_tokens_multiplier),
    temperature := cfg.tone_temperature, top_p := cfg.tone_top_p,
    top_k := cfg.tone_top_k, repeat_penalty := cfg.tone_repeat_penalty }

/-- Part of the try-block of `change_tone` that invokes the provider
    (reached only for the formal tone target): validate the stripped
    reply, cache on success under the tone-namespaced key. -/
def toneGenerate (cfg : GenerationConfig) (provider : Provider) (cache : LRUCache PyStr)
    (text target_tone : PyStr) (now : Nat) (elapsed : ℚ) : ProcOutcome :=
  match provider.outcome with
  | .raises msg => ⟨create_error_result text msg, cache, [toneCall cfg text]⟩
  | .answers resp =>
    if !resp.success then
      ⟨create_error_result text resp.error, cache, [toneCall cfg text]⟩
    else
      let formal_text := pyStrip resp.text
      if formal_text.isEmpty || belowMinLength formal_text text then
        ⟨create_error_result text (pyStr "Invalid tone change response"), cache, [toneCall cfg text]⟩
      else
        ⟨{ processed_text := formal_text, original_text := text, processing_time := elapsed,
           success := true, error_message := none, from_cache := some false,
           target_tone := some target_tone },
         cache.put (toneKey text target_tone) formal_text now, [toneCall cfg text]⟩

/-- Method `ToneChanger.change_tone`, with `cache` the state of the
    service's `tone_cache`.  Note that the cache lookup precedes the
    `target_tone.lower() != 'formal'` guard, exactly as in the source. -/
def change_tone (cfg : GenerationConfig) (provider : Provider) (cache : LRUCache PyStr)
    (text target_tone : PyStr) (now : Nat) (elapsed : ℚ) : ProcOutcome :=
  if !validate_input text then
    ⟨create_error_result text (pyStr "Invalid input text"), cache, []⟩
  else if !provider.loaded then
    ⟨create_error_result text (pyStr "Tone changer not available"), cache, []⟩
  else
    let looked := cache.get (toneKey text target_tone) now
    if pyTruthy looked.1 then
      ⟨{ processed_text := looked.1.getD [], original_text := text, processing_time := 0,
         success := true, error_message := none, from_cache := some true,
         target_tone := some target_tone },
       looked.2, []⟩
    else if pyLower target_tone ≠ pyStr "formal" then
      ⟨create_error_result text (pyStr "Unsupported tone: " ++ target_tone), looked.2, []⟩
    else
      toneGenerate cfg provider looked.2 text target_tone now elapsed

/-! Lemmas about the string model. -/

lemma lowerCp_idem (c : Nat) : lowerCp (lowerCp c) = lowerCp c := by
  simp only [lowerCp]
  split
  · split <;> omega
  · rfl

lemma isWsCp_lowerCp (c : Nat) : isWsCp (lowerCp c) = isWsCp c := by
  unfold lowerCp isWsCp
  split
  · exact decide_eq_decide.mpr (by omega)
  · rfl

lemma dropWhile_idem (p : α → Bool) (l : List α) :
    (l.dropWhile p).dropWhile p = l.dropWhile p := by
  induction l with
  | nil => rfl
  | cons a t ih =>
    by_cases h : p a
    · simp [List.dropWhile_cons, h, ih]
    · simp [List.dropWhile_cons, h]

lemma head?_dropWhile_false (p : α → Bool) (l : List α) :
    ∀ a, (l.dropWhile p).head? = some a → p a = false := by
  induction l with
  | nil => intro a h; simp at h
  | cons b t ih =>
    intro a h
    rw [List.dropWhile_cons] at h
    by_cases hb : p b
    · exact ih a (by simpa [hb] using h)
    · simp [hb] at h
      subst h
      simpa using hb

lemma getLast?_dropWhile (p : α → Bool) (l : List α) (h : l.dropWhile p ≠ []) :
    (l.dropWhile p).getLast? = l.getLast? := by
  induction l with
  | nil => simp at h
  | cons a t ih =>
    rw [List.dropWhile_cons] at h ⊢
    by_cases hp : p a
    · rw [if_pos hp] at h ⊢
      rw [ih h]
      cases t with
      | nil => simp [List.dropWhile] at h
      | cons b t' => rw [List.getLast?_cons_cons]
    · rw [if_neg hp]

lemma dropWhile_of_head?_false (p : α → Bool) (l : List α)
    (h : ∀ a, l.head? = some a → p a = false) : l.dropWhile p = l := by
  cases l with
  | nil => rfl
  | cons a t => rw [List.dropWhile_cons, h a rfl]; simp

lemma dropWhile_pyStrip (s : PyStr) : (pyStrip s).dropWhile isWsCp = pyStrip s := by
  apply dropWhile_of_head?_false
  intro a ha
  unfold pyStrip at ha
  rw [List.head?_reverse] at ha
  by_cases hR : (s.dropWhile isWsCp).reverse.dropWhile isWsCp = []
  · rw [hR] at ha; simp at ha
  · rw [getLast?_dropWhile isWsCp _ hR, List.getLast?_reverse] at ha
    exact head?_dropWhile_false isWsCp s a ha

lemma reverse_dropWhile_pyStrip (s : PyStr) :
    (pyStrip s).reverse.dropWhile isWsCp = (pyStrip s).reverse := by
  unfold pyStrip
  rw [List.reverse_reverse]
  exact dropWhile_idem isWsCp _

lemma pyStrip_idem (s : PyStr) : pyStrip (pyStrip s) = pyStrip s := by
  show (((pyStrip s).dropWhile isWsCp).reverse.dropWhile isWsCp).reverse = pyStrip s
  rw [dropWhile_pyStrip, reverse_dropWhile_pyStrip, List.reverse_reverse]

lemma pyLower_idem (s : PyStr) : pyLower (pyLower s) = pyLower s := by
  unfold pyLower
  rw [List.map_map]
  exact congrArg (fun f => List.map f s) (funext lowerCp_idem)

lemma pyStrip_pyLower (s : PyStr) : pyStrip (pyLower s) = pyLower (pyStrip s) := by
  have hws : (isWsCp ∘ lowerCp) = isWsCp := funext isWsCp_lowerCp
  unfold pyStrip pyLower
  rw [List.dropWhile_map, hws, ← List.map_reverse, List.dropWhile_map, hws, ← List.map_reverse]

lemma normalize_key_idem (s : PyStr) :
    normalize_key (normalize_key s) = normalize_key s := by
  unfold normalize_key
  rw [pyStrip_pyLower, pyStrip_idem, pyLower_idem]

/-! Lemmas about the map operations. -/

lemma dictGet_dictSet_self (m : List (PyStr × CacheEntry T)) (k : PyStr) (e : CacheEntry T) :
    dictGet (dictSet m k e) k = some e := by
  induction m with
  | nil => simp [dictSet, dictGet]
  | cons p rest ih =>
    obtain ⟨k', e'⟩ := p
    by_cases h : k' = k <;> simp [dictSet, dictGet, h, ih]

lemma dictGet_dictSet_ne (m : List (PyStr × CacheEntry T)) (k k' : PyStr) (e : CacheEntry T)
    (h : k' ≠ k) : dictGet (dictSet m k e) k' = dictGet m k' := by
  have hkk : ¬(k = k') := fun hh => h hh.symm
  induction m with
  | nil => simp only [dictSet, dictGet, if_neg hkk]
  | cons p rest ih =>
    obtain ⟨k₀, e₀⟩ := p
    by_cases h0 : k₀ = k
    · subst h0
      simp only [dictSet, if_pos rfl, dictGet, if_neg hkk]
    · simp only [dictSet, if_neg h0, dictGet, ih]

lemma keysOf_dictSet_of_mem (m : List (PyStr × CacheEntry T)) (k : PyStr) (e : CacheEntry T)
    (h : (dictGet m k).isSome) : keysOf (dictSet m k e) = keysOf m := by
  induction m with
  | nil => simp [dictGet] at h
  | cons p rest ih =>
    obtain ⟨k₀, e₀⟩ := p
    by_cases h0 : k₀ = k
    · subst h0; simp [dictSet, keysOf]
    · rw [dictGet, if_neg h0] at h
      simp [dictSet, keysOf, h0] at ih ⊢
      exact ih h

/-- Exactness of the integer form of the 30 percent guard: the model's
    comparison coincides with the rational reading of
    `len(out) < len(text) * 0.3`. -/
lemma belowMinLength_iff_rat (out text : PyStr) :
    belowMinLength out text = true ↔
      ((out.length : ℚ) < (text.length : ℚ) * (3 / 10)) := by
  unfold belowMinLength
  rw [decide_eq_true_eq, ← mul_div_assoc, lt_div_iff₀ (by norm_num : (0:ℚ) < 10)]
  norm_cast
  omega

/-- C8: key normalization (trim then lowercase) is idempotent, and a `get`
    of `normalize(s)` immediately after `put(normalize(s), v)` on the same
    `LRUCache` returns `v`. -/
theorem normalize_key_idempotent_and_put_get_roundtrip
    (s v : PyStr) (c : LRUCache PyStr) (now now' : Nat) :
    normalize_key (normalize_key s) = normalize_key s
    ∧ ((c.put (normalize_key s) v now).get (normalize_key s) now').1 = some v := by
  refine ⟨normalize_key_idem s, ?_⟩
  have h := dictGet_dictSet_self
    ((if c.max_size ≤ c.cache.length then c.cleanup else c).cache)
    (normalize_key s) (CacheEntry.init v now)
  simp only [LRUCache.put, LRUCache.get, h]
  rfl

/-- C9: `LRUCache.get` returns `None` on a miss and leaves the map
    untouched; on a hit it returns the stored value, bumps that entry's
    `access_count` by exactly one, refreshes its `last_accessed` to the
    current instant, leaves every other key's entry unchanged, and
    preserves the key sequence of the map as well as the cache's
    configuration. -/
theorem get_miss_frame_and_hit_update (c : LRUCache T) (k : PyStr) (now : Nat) :
    (dictGet c.cache k = none → c.get k now = (none, c))
    ∧ ∀ e, dictGet c.cache k = some e →
        (c.get k now).1 = some e.value
        ∧ dictGet (c.get k now).2.cache k =
            some { e with access_count := e.access_count + 1, last_accessed := now }
        ∧ (∀ k', k' ≠ k → dictGet (c.get k now).2.cache k' = dictGet c.cache k')
        ∧ keysOf (c.get k now).2.cache = keysOf c.cache
        ∧ (c.get k now).2.max_size = c.max_size
        ∧ (c.get k now).2.cleanup_batch_size = c.cleanup_batch_size := by
  constructor
  · intro h
    simp [LRUCache.get, h]
  · intro e he
    refine ⟨?_, ?_, ?_, ?_, ?_, ?_⟩
    · simp [LRUCache.get, he, CacheEntry.access]
    · simp [LRUCache.get, he, CacheEntry.access, dictGet_dictSet_self]
    · intro k' hk'
      simp [LRUCache.get, he, CacheEntry.access, dictGet_dictSet_ne _ _ _ _ hk']
    · have hs : (dictGet c.cache k).isSome := by rw [he]; rfl
      simp [LRUCache.get, he, CacheEntry.access, keysOf_dictSet_of_mem _ _ _ hs]
    · simp [LRUCache.get, he]
    · simp [LRUCache.get, he]

/-- Concrete one-entry cache used by witnesses. -/
def sampleCache : LRUCache PyStr :=
  { max_size := 10, cleanup_batch_size := 2,
    cache := [(pyStr "k", { value := pyStr "v", created_at := 0, access_count := 3,
                            last_accessed := 1 })] }

/-- Witness for C9 at a concrete cache: the hit returns the stored value
    and refreshes the entry, the miss leaves the cache unchanged. -/
theorem get_miss_frame_and_hit_update_witness :
    (sampleCache.get (pyStr "nope") 7 = (none, sampleCache))
    ∧ (sampleCache.get (pyStr "k") 7).1 = some (pyStr "v") := by
  constructor
  · exact (get_miss_frame_and_hit_update sampleCache (pyStr "nope") 7).1 (by decide)
  · exact ((get_miss_frame_and_hit_update sampleCache (pyStr "k") 7).2
      { value := pyStr "v", created_at := 0, access_count := 3, last_accessed := 1 }
      (by decide)).1

/-! Lemmas about deletion and key sets, leading to the `_cleanup` spec. -/

lemma keysOf_cons (k : PyStr) (e : CacheEntry T) (rest : List (PyStr × CacheEntry T)) :
    keysOf ((k, e) :: rest) = k :: keysOf rest := rfl

lemma dictGet_isSome_iff (m : List (PyStr × CacheEntry T)) (k : PyStr) :
    (dictGet m k).isSome ↔ k ∈ keysOf m := by
  induction m with
  | nil => simp [dictGet, keysOf]
  | cons p rest ih =>
    obtain ⟨k₀, e₀⟩ := p
    by_cases h0 : k₀ = k
    · subst h0; simp [dictGet, keysOf]
    · rw [keysOf_cons, List.mem_cons]
      simp only [dictGet, if_neg h0]
      rw [ih]
      constructor
      · intro h; exact Or.inr h
      · rintro (h | h)
        · exact absurd h.symm h0
        · exact h

lemma dictDel_sublist (m : List (PyStr × CacheEntry T)) (k : PyStr) :
    (dictDel m k).Sublist m := by
  induction m with
  | nil => simp [dictDel]
  | cons p rest ih =>
    obtain ⟨k₀, e₀⟩ := p
    by_cases h0 : k₀ = k
    · simp only [dictDel, if_pos h0]
      exact List.sublist_cons_self _ _
    · simp only [dictDel, if_neg h0]
      exact ih.cons₂ _

lemma nodupKeys_dictDel (m : List (PyStr × CacheEntry T)) (k : PyStr)
    (hnd : NodupKeys m) : NodupKeys (dictDel m k) :=
  List.Nodup.sublist ((dictDel_sublist m k).map Prod.fst) hnd

lemma length_dictDel (m : List (PyStr × CacheEntry T)) (k : PyStr)
    (h : k ∈ keysOf m) : (dictDel m k).length + 1 = m.length := by
  induction m with
  | nil => simp [keysOf] at h
  | cons p rest ih =>
    obtain ⟨k₀, e₀⟩ := p
    by_cases h0 : k₀ = k
    · simp only [dictDel, if_pos h0, List.length_cons]
    · rw [keysOf_cons, List.mem_cons] at h
      rcases h with h | h
    
      · exact absurd h.symm h0
      · simp only [dictDel, if_neg h0, List.length_cons, ih h]

lemma mem_keysOf_dictDel_of_ne (m : List (PyStr × CacheEntry T)) (k k' : PyStr)
    (h : k' ∈ keysOf m) (hne : k' ≠ k) : k' ∈ keysOf (dictDel m k) := by
  induction m with
  | nil => simp [keysOf] at h
  | cons p rest ih =>
    obtain ⟨k₀, e₀⟩ := p
    rw [keysOf_cons, List.mem_cons] at h
    by_cases h0 : k₀ = k
    · simp only [dictDel, if_pos h0]
      rcases h with h | h
      · exact absurd (h.trans h0) hne
      · exact h
    · simp only [dictDel, if_neg h0, keysOf_cons, List.mem_cons]
      rcases h with h | h
      · exact Or.inl h
      · exact Or.inr (ih h)

lemma mem_dictDel (m : List (PyStr × CacheEntry T)) (k : PyStr)
    (hnd : NodupKeys m) (p : PyStr × CacheEntry T) :
    p ∈ dictDel m k ↔ p ∈ m ∧ p.1 ≠ k := by
  induction m with
  | nil => simp [dictDel]
  | cons q rest ih =>
    obtain ⟨k₀, e₀⟩ := q
    rw [NodupKeys, keysOf_cons, List.nodup_cons] at hnd
    obtain ⟨hk₀, hnd'⟩ := hnd
    by_cases h0 : k₀ = k
    · subst h0
      simp only [dictDel, if_pos rfl, List.mem_cons]
      constructor
      · intro hp
        have hp1 : p.1 ∈ keysOf rest := List.mem_map_of_mem Prod.fst hp
        refine ⟨Or.inr hp, fun hk => ?_⟩
        rw [hk] at hp1
        exact hk₀ hp1
      · rintro ⟨hp | hp, hne⟩
        · rw [hp] at hne
          exact absurd rfl hne
        · exact hp
    · simp only [dictDel, if_neg h0, List.mem_cons, ih hnd']
      constructor
      · rintro (hp | ⟨hp, hne⟩)
        · refine ⟨Or.inl hp, fun hk => ?_⟩
          rw [hp] at hk
          exact h0 hk
        · exact ⟨Or.inr hp, hne⟩
      · rintro ⟨hp | hp, hne⟩
        · exact Or.inl hp
        · exact Or.inr ⟨hp, hne⟩

lemma eq_of_mem_of_nodupKeys (m : List (PyStr × CacheEntry T))
    (hnd : NodupKeys m) (p q : PyStr × CacheEntry T)
    (hp : p ∈ m) (hq : q ∈ m) (h : p.1 = q.1) : p = q := by
  induction m with
  | nil => simp at hp
  | cons r rest ih =>
    rw [NodupKeys, keysOf_cons, List.nodup_cons] at hnd
    obtain ⟨hr, hnd'⟩ := hnd
    rcases List.mem_cons.mp hp with hp1 | hp1 <;> rcases List.mem_cons.mp hq with hq1 | hq1
    · rw [hp1, hq1]
    · exfalso
      apply hr
      rw [← hp1, h]
      exact List.mem_map_of_mem Prod.fst hq1
    · exfalso
      apply hr
      rw [← hq1, ← h]
      exact List.mem_map_of_mem Prod.fst hp1
    · exact ih hnd' hp1 hq1

lemma foldl_dictDel_spec :
    ∀ (K : List (PyStr × CacheEntry T)) (m : List (PyStr × CacheEntry T)),
      NodupKeys m → (K.map Prod.fst).Nodup →
      (∀ k ∈ K.map Prod.fst, k ∈ keysOf m) →
      (K.foldl (fun acc p => dictDel acc p.1) m).length + K.length = m.length
      ∧ NodupKeys (K.foldl (fun acc p => dictDel acc p.1) m)
      ∧ ∀ p, p ∈ K.foldl (fun acc p => dictDel acc p.1) m ↔
          p ∈ m ∧ p.1 ∉ K.map Prod.fst := by
  intro K
  induction K with
  | nil =>
    intro m hnd _ _
    exact ⟨by simp, hnd, fun p => by simp⟩
  | cons q K' ih =>
    intro m hnd hK hsub
    rw [List.map_cons, List.nodup_cons] at hK
    obtain ⟨hq, hK'⟩ := hK
    have hqm : q.1 ∈ keysOf m := hsub q.1 (by simp)
    have hnd' : NodupKeys (dictDel m q.1) := nodupKeys_dictDel m q.1 hnd
    have hsub' : ∀ k ∈ K'.map Prod.fst, k ∈ keysOf (dictDel m q.1) := by
      intro k hk
      exact mem_keysOf_dictDel_of_ne m q.1 k (hsub k (by simp [hk]))
        (fun hkq => hq (hkq ▸ hk))
    obtain ⟨hlen, hnd'', hmem⟩ := ih (dictDel m q.1) hnd' hK' hsub'
    refine ⟨?_, ?_, ?_⟩
    · have h1 : (dictDel m q.1).length + 1 = m.length := length_dictDel m q.1 hqm
      simp only [List.foldl_cons, List.length_cons]
      omega
    · simpa using hnd''
    · intro p
      simp only [List.foldl_cons, hmem p, mem_dictDel m q.1 hnd p,
        List.map_cons, List.mem_cons]
      constructor
      · rintro ⟨⟨hp, hne⟩, hnk⟩
        exact ⟨hp, by simp [hne, hnk]⟩
      · rintro ⟨hp, hnk⟩
        simp only [not_or] at hnk
        exact ⟨⟨hp, hnk.1⟩, hnk.2⟩

/-- Keys slated for removal by `_cleanup`: the first `cleanup_batch_size`
    items of the map sorted by `last_accessed` ascending. -/
def removalBatch (c : LRUCache T) : List (PyStr × CacheEntry T) :=
  (List.insertionSort entryLE c.cache).take c.cleanup_batch_size

lemma cleanup_spec (c : LRUCache T) (hnd : NodupKeys c.cache)
    (hB : c.cleanup_batch_size ≤ c.cache.length) :
    (c.cleanup).cache.length + c.cleanup_batch_size = c.cache.length
    ∧ NodupKeys (c.cleanup).cache
    ∧ ∀ p, p ∈ (c.cleanup).cache ↔
        p ∈ c.cache ∧ p.1 ∉ (removalBatch c).map Prod.fst := by
  have hperm : (List.insertionSort entryLE c.cache).Perm c.cache :=
    List.perm_insertionSort entryLE c.cache
  have hpermk : ((List.insertionSort entryLE c.cache).map Prod.fst).Perm (keysOf c.cache) :=
    hperm.map Prod.fst
  have hndK : ((removalBatch c).map Prod.fst).Nodup := by
    have hsub : ((removalBatch c).map Prod.fst).Sublist
        ((List.insertionSort entryLE c.cache).map Prod.fst) :=
      (List.take_sublist _ _).map Prod.fst
    exact List.Nodup.sublist hsub (hpermk.nodup_iff.mpr hnd)
  have hsubK : ∀ k ∈ (removalBatch c).map Prod.fst, k ∈ keysOf c.cache := by
    intro k hk
    rcases List.mem_map.mp hk with ⟨p, hp, hpk⟩
    have hp' : p ∈ List.insertionSort entryLE c.cache :=
      (List.take_sublist _ _).mem hp
    have hp'' : p ∈ c.cache := hperm.mem_iff.mp hp'
    exact hpk ▸ List.mem_map_of_mem Prod.fst hp''
  have hKlen : (removalBatch c).length = c.cleanup_batch_size := by
    rw [removalBatch, List.length_take, hperm.length_eq]
    omega
  obtain ⟨hlen, hnd', hmem⟩ :=
    foldl_dictDel_spec (removalBatch c) c.cache hnd hndK hsubK
  have hcachedef : (c.cleanup).cache =
      (removalBatch c).foldl (fun m p => dictDel m p.1) c.cache := by
    unfold LRUCache.cleanup removalBatch
    rw [if_neg (by omega)]
  refine ⟨?_, ?_, ?_⟩
  · rw [hcachedef]
    omega
  · rw [hcachedef]; exact hnd'
  · intro p
    rw [hcachedef]
    exact hmem p

/-- C2: whenever `put` triggers a cleanup on a map with at least
    `cleanup_batch_size` entries, exactly `cleanup_batch_size` entries are
    removed, nothing new appears, every removed entry has a
    `last_accessed` no larger than that of every surviving entry, and the
    triggered `put` is precisely `_cleanup` followed by the insertion. -/
theorem cleanup_evicts_exactly_oldest_batch (c : LRUCache T)
    (hnd : NodupKeys c.cache) (hB : c.cleanup_batch_size ≤ c.cache.length) :
    (c.cleanup).cache.length + c.cleanup_batch_size = c.cache.length
    ∧ (∀ q ∈ (c.cleanup).cache, q ∈ c.cache)
    ∧ (∀ p ∈ c.cache, p ∉ (c.cleanup).cache →
        ∀ q ∈ (c.cleanup).cache, p.2.last_accessed ≤ q.2.last_accessed)
    ∧ ∀ key value now, c.max_size ≤ c.cache.length →
        (c.put key value now).cache =
          dictSet (c.cleanup).cache key (CacheEntry.init value now) := by
  obtain ⟨hlen, hnd', hmem⟩ := cleanup_spec c hnd hB
  have hsorted : List.Sorted entryLE (List.insertionSort entryLE c.cache) :=
    List.sorted_insertionSort entryLE c.cache
  have hperm : (List.insertionSort entryLE c.cache).Perm c.cache :=
    List.perm_insertionSort entryLE c.cache
  refine ⟨hlen, ?_, ?_, ?_⟩
  · intro q hq
    exact ((hmem q).mp hq).1
  · intro p hp hpout q hq
    have hpk : p.1 ∈ (removalBatch c).map Prod.fst := by
      by_contra hnk
      exact hpout ((hmem p).mpr ⟨hp, hnk⟩)
    rcases List.mem_map.mp hpk with ⟨p', hp', hpk'⟩
    have hp'm : p' ∈ c.cache :=
      hperm.mem_iff.mp ((List.take_sublist _ _).mem hp')
    have hpp' : p' = p := eq_of_mem_of_nodupKeys c.cache hnd p' p hp'm hp hpk'
    have hqc : q ∈ c.cache := ((hmem q).mp hq).1
    have hqs : q ∈ List.insertionSort entryLE c.cache := hperm.mem_iff.mpr hqc
    have hqdrop : q ∈ (List.insertionSort entryLE c.cache).drop c.cleanup_batch_size := by
      rcases (List.mem_append.mp (by
        rw [List.take_append_drop]
        exact hqs : q ∈ (List.insertionSort entryLE c.cache).take c.cleanup_batch_size ++
          (List.insertionSort entryLE c.cache).drop c.cleanup_batch_size)) with hq1 | hq1
      · exfalso
        have : q.1 ∈ (removalBatch c).map Prod.fst := List.mem_map_of_mem Prod.fst hq1
        exact ((hmem q).mp hq).2 this
      · exact hq1
    have hrel : entryLE p q := by
      have := hsorted.rel_of_mem_take_of_mem_drop (hpp' ▸ hp') hqdrop
      exact this
    exact hrel
  · intro key value now htrig
    unfold LRUCache.put
    rw [if_pos htrig]

/-- Concrete three-entry cache with batch size two, used by witnesses. -/
def sampleCache3 : LRUCache PyStr :=
  { max_size := 3, cleanup_batch_size := 2,
    cache := [(pyStr "a", { value := pyStr "1", created_at := 0, access_count := 0,
                            last_accessed := 5 }),
              (pyStr "b", { value := pyStr "2", created_at := 0, access_count := 0,
                            last_accessed := 3 }),
              (pyStr "c", { value := pyStr "3", created_at := 0, access_count := 0,
                            last_accessed := 9 })] }

/-- Witness for C2 at a concrete cache: two of the three entries are
    removed by the cleanup. -/
theorem cleanup_evicts_exactly_oldest_batch_witness :
    (sampleCache3.cleanup).cache.length + 2 = 3 :=
  (cleanup_evicts_exactly_oldest_batch sampleCache3 (by decide) (by decide)).1

/-! Lemmas about insertion, leading to the size bound of C1. -/

lemma length_dictSet_le (m : List (PyStr × CacheEntry T)) (k : PyStr) (e : CacheEntry T) :
    (dictSet m k e).length ≤ m.length + 1 := by
  induction m with
  | nil => simp [dictSet]
  | cons p rest ih =>
    obtain ⟨k₀, e₀⟩ := p
    by_cases h0 : k₀ = k
    · simp [dictSet, if_pos h0]
    · simp only [dictSet, if_neg h0, List.length_cons]
      omega

lemma mem_keysOf_dictSet (m : List (PyStr × CacheEntry T)) (k k' : PyStr) (e : CacheEntry T) :
    k' ∈ keysOf (dictSet m k e) → k' ∈ keysOf m ∨ k' = k := by
  induction m with
  | nil =>
    intro h
    simp [dictSet, keysOf] at h
    exact Or.inr h
  | cons p rest ih =>
    obtain ⟨k₀, e₀⟩ := p
    intro h
    by_cases h0 : k₀ = k
    · rw [dictSet, if_pos h0, keysOf_cons] at h
      rcases List.mem_cons.mp h with h1 | h1
      · exact Or.inr h1
      · exact Or.inl (by rw [keysOf_cons]; exact List.mem_cons_of_mem _ h1)
    · rw [dictSet, if_neg h0, keysOf_cons] at h
      rcases List.mem_cons.mp h with h1 | h1
      · refine Or.inl ?_
        rw [keysOf_cons, h1]
        exact List.mem_cons_self _ _
      · rcases ih h1 with h2 | h2
        · exact Or.inl (by rw [keysOf_cons]; exact List.mem_cons_of_mem _ h2)
        · exact Or.inr h2

lemma nodupKeys_dictSet (m : List (PyStr × CacheEntry T)) (k : PyStr) (e : CacheEntry T)
    (hnd : NodupKeys m) : NodupKeys (dictSet m k e) := by
  induction m with
  | nil => simp [dictSet, NodupKeys, keysOf]
  | cons p rest ih =>
    obtain ⟨k₀, e₀⟩ := p
    rw [NodupKeys, keysOf_cons, List.nodup_cons] at hnd
    obtain ⟨hk₀, hnd'⟩ := hnd
    by_cases h0 : k₀ = k
    · rw [NodupKeys, dictSet, if_pos h0, keysOf_cons, List.nodup_cons]
      rw [← h0]
      exact ⟨hk₀, hnd'⟩
    · rw [NodupKeys, dictSet, if_neg h0, keysOf_cons, List.nodup_cons]
      refine ⟨?_, ih hnd'⟩
      intro hmem
      rcases mem_keysOf_dictSet rest k k₀ e hmem with h1 | h1
      · exact hk₀ h1
      · exact h0 h1

lemma cleanup_max_size (c : LRUCache T) : (c.cleanup).max_size = c.max_size := by
  unfold LRUCache.cleanup; split <;> rfl

lemma cleanup_batch_size_eq (c : LRUCache T) :
    (c.cleanup).cleanup_batch_size = c.cleanup_batch_size := by
  unfold LRUCache.cleanup; split <;> rfl

lemma put_cache_eq (c : LRUCache T) (k : PyStr) (v : T) (now : Nat) :
    (c.put k v now).cache =
      dictSet (if c.max_size ≤ c.cache.length then c.cleanup else c).cache k
        (CacheEntry.init v now) := rfl

lemma put_max_size (c : LRUCache T) (k : PyStr) (v : T) (now : Nat) :
    (c.put k v now).max_size = c.max_size := by
  show (if c.max_size ≤ c.cache.length then c.cleanup else c).max_size = c.max_size
  split
  · exact cleanup_max_size c
  · rfl

lemma put_batch_size (c : LRUCache T) (k : PyStr) (v : T) (now : Nat) :
    (c.put k v now).cleanup_batch_size = c.cleanup_batch_size := by
  show (if c.max_size ≤ c.cache.length then c.cleanup else c).cleanup_batch_size =
    c.cleanup_batch_size
  split
  · exact cleanup_batch_size_eq c
  · rfl

lemma put_preserves_bound (c : LRUCache T) (k : PyStr) (v : T) (now : Nat)
    (hb : 1 ≤ c.cleanup_batch_size) (hnd : NodupKeys c.cache)
    (hsz : c.cache.length ≤ max c.max_size c.cleanup_batch_size) :
    NodupKeys (c.put k v now).cache
    ∧ (c.put k v now).cache.length ≤ max c.max_size c.cleanup_batch_size
    ∧ (c.put k v now).max_size = c.max_size
    ∧ (c.put k v now).cleanup_batch_size = c.cleanup_batch_size := by
  by_cases htrig : c.max_size ≤ c.cache.length
  · by_cases hskip : c.cache.length < c.cleanup_batch_size
    · have hcl : c.cleanup = c := by unfold LRUCache.cleanup; rw [if_pos hskip]
      have hc2 : (c.put k v now).cache = dictSet c.cache k (CacheEntry.init v now) := by
        rw [put_cache_eq, if_pos htrig, hcl]
      refine ⟨?_, ?_, put_max_size c k v now, put_batch_size c k v now⟩
      · rw [hc2]; exact nodupKeys_dictSet _ _ _ hnd
      · rw [hc2]
        have := length_dictSet_le c.cache k (CacheEntry.init v now)
        omega
    · have hB : c.cleanup_batch_size ≤ c.cache.length := by omega
      obtain ⟨hlen, hnd', _⟩ := cleanup_spec c hnd hB
      have hc2 : (c.put k v now).cache =
          dictSet (c.cleanup).cache k (CacheEntry.init v now) := by
        rw [put_cache_eq, if_pos htrig]
      refine ⟨?_, ?_, put_max_size c k v now, put_batch_size c k v now⟩
      · rw [hc2]; exact nodupKeys_dictSet _ _ _ hnd'
      · rw [hc2]
        have := length_dictSet_le (c.cleanup).cache k (CacheEntry.init v now)
        omega
  · have hc2 : (c.put k v now).cache = dictSet c.cache k (CacheEntry.init v now) := by
      rw [put_cache_eq, if_neg htrig]
    refine ⟨?_, ?_, put_max_size c k v now, put_batch_size c k v now⟩
    · rw [hc2]; exact nodupKeys_dictSet _ _ _ hnd
    · rw [hc2]
      have := length_dictSet_le c.cache k (CacheEntry.init v now)
      omega

lemma runPuts_invariant :
    ∀ (ops : List (PyStr × T × Nat)) (c : LRUCache T),
      1 ≤ c.cleanup_batch_size → NodupKeys c.cache →
      c.cache.length ≤ max c.max_size c.cleanup_batch_size →
      NodupKeys (c.runPuts ops).cache
      ∧ (c.runPuts ops).cache.length ≤ max c.max_size c.cleanup_batch_size
      ∧ (c.runPuts ops).max_size = c.max_size
      ∧ (c.runPuts ops).cleanup_batch_size = c.cleanup_batch_size := by
  intro ops
  induction ops with
  | nil => intro c hb hnd hsz; exact ⟨hnd, hsz, rfl, rfl⟩
  | cons op ops' ih =>
    intro c hb hnd hsz
    obtain ⟨hnd', hsz', hM, hB⟩ := put_preserves_bound c op.1 op.2.1 op.2.2 hb hnd hsz
    have hstep : c.runPuts (op :: ops') = (c.put op.1 op.2.1 op.2.2).runPuts ops' := rfl
    rw [hstep]
    obtain ⟨h1, h2, h3, h4⟩ := ih (c.put op.1 op.2.1 op.2.2)
      (by rw [hB]; exact hb) hnd' (by rw [hM, hB]; exact hsz')
    exact ⟨h1, by rw [hM, hB] at h2; exact h2, by rw [h3, hM], by rw [h4, hB]⟩

/-- C1 (amended): for a cache with a positive `cleanup_batch_size`,
    starting from the empty cache every sequence of `put` calls keeps
    `size()` within `max(max_size, cleanup_batch_size)` after each call;
    in particular, when `max_size ≥ cleanup_batch_size` the bound
    `size() ≤ max_size` holds after each `put` returns, and otherwise the
    size can exceed `max_size` only up to `cleanup_batch_size` (the point
    at which a capacity-triggered cleanup stops being skipped). -/
theorem put_sequence_size_bounded {T : Type} (M B : Nat) (hb : 1 ≤ B)
    (ops : List (PyStr × T × Nat)) :
    ((LRUCache.empty M B : LRUCache T).runPuts ops).size ≤ max M B
    ∧ (B ≤ M → ((LRUCache.empty M B : LRUCache T).runPuts ops).size ≤ M) := by
  have h := runPuts_invariant ops (LRUCache.empty M B : LRUCache T) hb
    (by simp [LRUCache.empty, NodupKeys, keysOf]) (by simp [LRUCache.empty])
  have h2 : ((LRUCache.empty M B : LRUCache T).runPuts ops).cache.length ≤ max M B := h.2.1
  constructor
  · show ((LRUCache.empty M B : LRUCache T).runPuts ops).cache.length ≤ max M B
    exact h2
  · intro hBM
    show ((LRUCache.empty M B : LRUCache T).runPuts ops).cache.length ≤ M
    omega

/-- Witness for C1 (amended) at concrete parameters: four puts into a
    cache of `max_size = 2`, `cleanup_batch_size = 1` stay within the
    bound. -/
theorem put_sequence_size_bounded_witness :
    ((LRUCache.empty 2 1 : LRUCache PyStr).runPuts
        [(pyStr "a", pyStr "1", 0), (pyStr "b", pyStr "2", 1),
         (pyStr "c", pyStr "3", 2), (pyStr "d", pyStr "4", 3)]).size ≤ 2 :=
  (put_sequence_size_bounded 2 1 (by decide)
    [(pyStr "a", pyStr "1", 0), (pyStr "b", pyStr "2", 1),
     (pyStr "c", pyStr "3", 2), (pyStr "d", pyStr "4", 3)]).2 (by decide)

/-- Counterexample to C1 as stated: a cache constructed with
    `max_size = 0` and `cleanup_batch_size = 0` satisfies
    `max_size ≥ cleanup_batch_size`, yet after a single `put` from the
    empty cache `size()` is `1 > 0 = max_size` — the cleanup runs but, its
    batch being empty, removes nothing. -/
theorem put_sequence_size_counterexample :
    (LRUCache.empty 0 0 : LRUCache PyStr).cleanup_batch_size ≤
      (LRUCache.empty 0 0 : LRUCache PyStr).max_size
    ∧ ((LRUCache.empty 0 0 : LRUCache PyStr).runPuts [(pyStr "k", pyStr "v", 0)]).size = 1
    ∧ ¬(((LRUCache.empty 0 0 : LRUCache PyStr).runPuts [(pyStr "k", pyStr "v", 0)]).size ≤
        (LRUCache.empty 0 0 : LRUCache PyStr).max_size) := by
  decide

/-! Lemmas about the processors. -/

/-- Observable cache content: keys with their stored values, metadata
    dropped.  A failed invocation must leave this unchanged even though a
    lookup refreshes access metadata. -/
def entriesView (c : LRUCache T) : List (PyStr × T) := c.cache.map (fun p => (p.1, p.2.value))

lemma map_view_dictSet (m : List (PyStr × CacheEntry T)) (k : PyStr) (e e' : CacheEntry T)
    (hget : dictGet m k = some e) (hv : e'.value = e.value) :
    (dictSet m k e').map (fun p => (p.1, p.2.value)) = m.map (fun p => (p.1, p.2.value)) := by
  induction m with
  | nil => simp [dictGet] at hget
  | cons q rest ih =>
    obtain ⟨k₀, e₀⟩ := q
    by_cases h0 : k₀ = k
    · rw [dictGet, if_pos h0] at hget
      have he : e₀ = e := Option.some_injective _ hget
      rw [dictSet, if_pos h0]
      simp only [List.map_cons]
      rw [h0, hv, he]
    · rw [dictGet, if_neg h0] at hget
      rw [dictSet, if_neg h0]
      simp only [List.map_cons]
      rw [ih hget]

lemma entriesView_get (c : LRUCache T) (k : PyStr) (now : Nat) :
    entriesView (c.get k now).2 = entriesView c := by
  unfold LRUCache.get
  cases h : dictGet c.cache k with
  | none => rfl
  | some e =>
    simp only [entriesView]
    exact map_view_dictSet c.cache k e _ h rfl

lemma get_fst (c : LRUCache T) (k : PyStr) (now : Nat) :
    (c.get k now).1 = (dictGet c.cache k).map CacheEntry.value := by
  unfold LRUCache.get
  cases h : dictGet c.cache k <;> simp [h, CacheEntry.access]

lemma pyStrip_length_le (s : PyStr) : (pyStrip s).length ≤ s.length := by
  unfold pyStrip
  rw [List.length_reverse]
  calc ((s.dropWhile isWsCp).reverse.dropWhile isWsCp).length
      ≤ (s.dropWhile isWsCp).reverse.length := (List.dropWhile_sublist _).length_le
    _ = (s.dropWhile isWsCp).length := List.length_reverse _
    _ ≤ s.length := (List.dropWhile_sublist _).length_le

lemma pyStrip_nil : pyStrip ([] : PyStr) = [] := rfl

lemma pyTruthy_some_of_ne (v : PyStr) (h : v ≠ []) : pyTruthy (some v) = true := by
  simp [pyTruthy, h]

lemma fix_grammar_hit (cfg : GenerationConfig) (provider : Provider) (cache : LRUCache PyStr)
    (text : PyStr) (now : Nat) (elapsed : ℚ) (e : CacheEntry PyStr)
    (hv : validate_input text = true) (hl : provider.loaded = true)
    (he : dictGet cache.cache (normalize_key text) = some e) (hne : e.value ≠ []) :
    fix_grammar cfg provider cache text now elapsed =
      ⟨{ processed_text := e.value, original_text := text, processing_time := 0,
         success := true, error_message := none, from_cache := some true, target_tone := none },
       (cache.get (normalize_key text) now).2, []⟩ := by
  have h1 : (cache.get (normalize_key text) now).1 = some e.value := by
    rw [get_fst, he]; rfl
  have h3 : pyTruthy (some e.value) = true := pyTruthy_some_of_ne e.value hne
  simp [fix_grammar, hv, hl, h1, h3]

lemma summarize_hit (cfg : GenerationConfig) (provider : Provider) (cache : LRUCache PyStr)
    (text : PyStr) (now : Nat) (elapsed : ℚ) (e : CacheEntry PyStr)
    (hv : validate_input text = true) (hl : provider.loaded = true)
    (he : dictGet cache.cache (normalize_key text) = some e) (hne : e.value ≠ []) :
    summarize cfg provider cache text now elapsed =
      ⟨{ processed_text := e.value, original_text := text, processing_time := 0,
         success := true, error_message := none, from_cache := some true, target_tone := none },
       (cache.get (normalize_key text) now).2, []⟩ := by
  have h1 : (cache.get (normalize_key text) now).1 = some e.value := by
    rw [get_fst, he]; rfl
  have h3 : pyTruthy (some e.value) = true := pyTruthy_some_of_ne e.value hne
  simp [summarize, hv, hl, h1, h3]

lemma change_tone_hit (cfg : GenerationConfig) (provider : Provider) (cache : LRUCache PyStr)
    (text tone : PyStr) (now : Nat) (elapsed : ℚ) (e : CacheEntry PyStr)
    (hv : validate_input text = true) (hl : provider.loaded = true)
    (he : dictGet cache.cache (toneKey text tone) = some e) (hne : e.value ≠ []) :
    change_tone cfg provider cache text tone now elapsed =
      ⟨{ processed_text := e.value, original_text := text, processing_time := 0,
         success := true, error_message := none, from_cache := some true,
         target_tone := some tone },
       (cache.get (toneKey text tone) now).2, []⟩ := by
  have h1 : (cache.get (toneKey text tone) now).1 = some e.value := by
    rw [get_fst, he]; rfl
  have h3 : pyTruthy (some e.value) = true := pyTruthy_some_of_ne e.value hne
  simp [change_tone, hv, hl, h1, h3]

lemma fix_grammar_miss_shape (cfg : GenerationConfig) (provider : Provider)
    (cache : LRUCache PyStr) (text : PyStr) (now : Nat) (elapsed : ℚ)
    (hv : validate_input text = true) (hl : provider.loaded = true)
    (hmiss : pyTruthy (cache.get (normalize_key text) now).1 = false) :
    (fix_grammar cfg provider cache text now elapsed).calls = [grammarCall cfg text]
    ∧ (fix_grammar cfg provider cache text now elapsed).result.from_cache ≠ some true := by
  obtain ⟨pl, po⟩ := provider
  rw [show Provider.loaded ⟨pl, po⟩ = pl from rfl] at hl
  subst hl
  cases po with
  | raises msg =>
    simp [fix_grammar, grammarGenerate, hv, hmiss, create_error_result]
  | answers resp =>
    by_cases hrs : resp.success
    · by_cases hcond : ((pyStrip resp.text).isEmpty || belowMinLength (pyStrip resp.text) text)
      · simp [fix_grammar, grammarGenerate, hv, hmiss, hrs, hcond, create_error_result]
      · simp [fix_grammar, grammarGenerate, hv, hmiss, hrs, hcond, create_error_result]
    · simp [fix_grammar, grammarGenerate, hv, hmiss, hrs, create_error_result]

lemma summarize_miss_shape (cfg : GenerationConfig) (provider : Provider)
    (cache : LRUCache PyStr) (text : PyStr) (now : Nat) (elapsed : ℚ)
    (hv : validate_input text = true) (hl : provider.loaded = true)
    (hmiss : pyTruthy (cache.get (normalize_key text) now).1 = false) :
    (summarize cfg provider cache text now elapsed).calls = [summaryCall cfg text]
    ∧ (summarize cfg provider cache text now elapsed).result.from_cache ≠ some true := by
  obtain ⟨pl, po⟩ := provider
  rw [show Provider.loaded ⟨pl, po⟩ = pl from rfl] at hl
  subst hl
  cases po with
  | raises msg =>
    simp [summarize, summaryGenerate, hv, hmiss, create_error_result]
  | answers resp =>
    by_cases hrs : resp.success
    · by_cases hcond : (pyStrip resp.text).isEmpty
      · simp [summarize, summaryGenerate, hv, hmiss, hrs, hcond, create_error_result]
      · simp [summarize, summaryGenerate, hv, hmiss, hrs, hcond, create_error_result]
    · simp [summarize, summaryGenerate, hv, hmiss, hrs, create_error_result]

lemma change_tone_miss_shape (cfg : GenerationConfig) (provider : Provider)
    (cache : LRUCache PyStr) (text tone : PyStr) (now : Nat) (elapsed : ℚ)
    (hv : validate_input text = true) (hl : provider.loaded = true)
    (hmiss : pyTruthy (cache.get (toneKey text tone) now).1 = false)
    (htone : pyLower tone = pyStr "formal") :
    (change_tone cfg provider cache text tone now elapsed).calls = [toneCall cfg text]
    ∧ (change_tone cfg provider cache text tone now elapsed).result.from_cache ≠ some true := by
  obtain ⟨pl, po⟩ := provider
  rw [show Provider.loaded ⟨pl, po⟩ = pl from rfl] at hl
  subst hl
  cases po with
  | raises msg =>
    simp [change_tone, toneGenerate, hv, hmiss, htone, create_error_result]
  | answers resp =>
    by_cases hrs : resp.success
    · by_cases hcond : ((pyStrip resp.text).isEmpty || belowMinLength (pyStrip resp.text) text)
      · simp [change_tone, toneGenerate, hv, hmiss, htone, hrs, hcond, create_error_result]
      · simp [change_tone, toneGenerate, hv, hmiss, htone, hrs, hcond, create_error_result]
    · simp [change_tone, toneGenerate, hv, hmiss, htone, hrs, create_error_result]

/-- Loaded provider whose single generate call succeeds with reply `out`. -/
def successProvider (out : PyStr) : Provider :=
  { loaded := true, outcome := .answers { success := true, text := out, error := [] } }

/-- Concrete caches holding a non-empty entry under the key for input
    `"hi"` (grammar and summary key, and the formal-tone key). -/
def hitCacheNorm : LRUCache PyStr :=
  { max_size := 100, cleanup_batch_size := 20,
    cache := [(pyStr "hi", { value := pyStr "HI!", created_at := 0, access_count := 0,
                             last_accessed := 0 })] }

/-- Concrete tone cache holding a non-empty entry under `"hi_formal"`. -/
def hitCacheTone : LRUCache PyStr :=
  { max_size := 100, cleanup_batch_size := 20,
    cache := [(pyStr "hi_formal", { value := pyStr "HI!", created_at := 0, access_count := 0,
                                    last_accessed := 0 })] }

/-- Concrete cache holding the empty string under the key for `"hi"`. -/
def emptyValueCache : LRUCache PyStr :=
  { max_size := 100, cleanup_batch_size := 20,
    cache := [(pyStr "hi", { value := [], created_at := 0, access_count := 0,
                             last_accessed := 0 })] }

/-- Concrete tone cache holding the empty string under `"hi_formal"`. -/
def emptyValueCacheTone : LRUCache PyStr :=
  { max_size := 100, cleanup_batch_size := 20,
    cache := [(pyStr "hi_formal", { value := [], created_at := 0, access_count := 0,
                                    last_accessed := 0 })] }

/-- C3 (amended): for every processor variant, when the input passes
    validation, the provider is loaded, and the cache holds a **non-empty**
    entry under the lookup key, the call returns a success result whose
    `processed_text` is the cached value, with `processing_time` 0 and
    `from_cache` true, and the provider's generate function is never
    invoked.  (A cached empty string is not returned: the hit check tests
    truthiness, see the counterexample.) -/
theorem cache_hit_short_circuits_inference
    (cfg : GenerationConfig) (provider : Provider) (cg cs ct : LRUCache PyStr)
    (text tone : PyStr) (now : Nat) (elapsed : ℚ) (eg es et : CacheEntry PyStr)
    (hv : validate_input text = true) (hl : provider.loaded = true)
    (hg : dictGet cg.cache (normalize_key text) = some eg) (hge : eg.value ≠ [])
    (hs : dictGet cs.cache (normalize_key text) = some es) (hse : es.value ≠ [])
    (ht : dictGet ct.cache (toneKey text tone) = some et) (hte : et.value ≠ []) :
    ((fix_grammar cfg provider cg text now elapsed).result.processed_text = eg.value
      ∧ (fix_grammar cfg provider cg text now elapsed).result.success = true
      ∧ (fix_grammar cfg provider cg text now elapsed).result.processing_time = 0
      ∧ (fix_grammar cfg provider cg text now elapsed).result.from_cache = some true
      ∧ (fix_grammar cfg provider cg text now elapsed).calls = [])
    ∧ ((summarize cfg provider cs text now elapsed).result.processed_text = es.value
      ∧ (summarize cfg provider cs text now elapsed).result.success = true
      ∧ (summarize cfg provider cs text now elapsed).result.processing_time = 0
      ∧ (summarize cfg provider cs text now elapsed).result.from_cache = some true
      ∧ (summarize cfg provider cs text now elapsed).calls = [])
    ∧ ((change_tone cfg provider ct text tone now elapsed).result.processed_text = et.value
      ∧ (change_tone cfg provider ct text tone now elapsed).result.success = true
      ∧ (change_tone cfg provider ct text tone now elapsed).result.processing_time = 0
      ∧ (change_tone cfg provider ct text tone now elapsed).result.from_cache = some true
      ∧ (change_tone cfg provider ct text tone now elapsed).calls = []) := by
  rw [fix_grammar_hit cfg provider cg text now elapsed eg hv hl hg hge,
      summarize_hit cfg provider cs text now elapsed es hv hl hs hse,
      change_tone_hit cfg provider ct text tone now elapsed et hv hl ht hte]
  exact ⟨⟨rfl, rfl, rfl, rfl, rfl⟩, ⟨rfl, rfl, rfl, rfl, rfl⟩, ⟨rfl, rfl, rfl, rfl, rfl⟩⟩

/-- Witness for C3 (amended) at a concrete prepopulated cache: the hit is
    served without any generate call. -/
theorem cache_hit_short_circuits_inference_witness :
    (fix_grammar defaultGenerationConfig (successProvider (pyStr "x")) hitCacheNorm
      (pyStr "hi") 0 1).calls = []
    ∧ (fix_grammar defaultGenerationConfig (successProvider (pyStr "x")) hitCacheNorm
      (pyStr "hi") 0 1).result.processed_text = pyStr "HI!" := by
  have h := cache_hit_short_circuits_inference defaultGenerationConfig
    (successProvider (pyStr "x")) hitCacheNorm hitCacheNorm hitCacheTone
    (pyStr "hi") (pyStr "formal") 0 1
    { value := pyStr "HI!", created_at := 0, access_count := 0, last_accessed := 0 }
    { value := pyStr "HI!", created_at := 0, access_count := 0, last_accessed := 0 }
    { value := pyStr "HI!", created_at := 0, access_count := 0, last_accessed := 0 }
    (by decide) rfl (by decide) (by decide) (by decide) (by decide) (by decide) (by decide)
  exact ⟨h.1.2.2.2.2, h.1.1⟩

/-- Counterexample to C3 as stated: the cache may hold an **entry** for
    the normalized key whose value is the empty string; the processor then
    does invoke the provider (one generate call) and does not return a
    cached success, because the hit check tests truthiness rather than
    presence. -/
theorem cache_hit_short_circuits_inference_counterexample :
    (dictGet emptyValueCache.cache (normalize_key (pyStr "hi"))).isSome = true
    ∧ (successProvider (pyStr "hello there okay")).loaded = true
    ∧ (fix_grammar defaultGenerationConfig (successProvider (pyStr "hello there okay"))
        emptyValueCache (pyStr "hi") 1 1).calls.length = 1
    ∧ (fix_grammar defaultGenerationConfig (successProvider (pyStr "hello there okay"))
        emptyValueCache (pyStr "hi") 1 1).result.from_cache = some false := by
  decide

/-- C4 (amended): when the input passes validation, the provider is
    loaded, and the tone cache holds no truthy entry for the namespaced
    key, `change_tone` with any target tone whose lowercasing is not
    `"formal"` returns a failed result carrying the unsupported-tone
    message and never invokes the provider.  (The guard compares the
    lowercased target, and a prepopulated cache entry would be served
    before the guard runs: see the counterexample.) -/
theorem unsupported_tone_fails_without_inference
    (cfg : GenerationConfig) (provider : Provider) (cache : LRUCache PyStr)
    (text tone : PyStr) (now : Nat) (elapsed : ℚ)
    (hv : validate_input text = true) (hl : provider.loaded = true)
    (hmiss : pyTruthy (cache.get (toneKey text tone) now).1 = false)
    (htone : pyLower tone ≠ pyStr "formal") :
    (change_tone cfg provider cache text tone now elapsed).result.success = false
    ∧ (change_tone cfg provider cache text tone now elapsed).result.error_message =
        some (pyStr "Unsupported tone: " ++ tone)
    ∧ (change_tone cfg provider cache text tone now elapsed).calls = [] := by
  simp [change_tone, hv, hl, hmiss, htone, create_error_result]

/-- Witness for C4 (amended): `change_tone(text, "casual")` fails without
    a generate call. -/
theorem unsupported_tone_fails_without_inference_witness :
    (change_tone defaultGenerationConfig (successProvider (pyStr "x")) (LRUCache.empty 50 20)
      (pyStr "hello") (pyStr "casual") 0 1).result.success = false
    ∧ (change_tone defaultGenerationConfig (successProvider (pyStr "x")) (LRUCache.empty 50 20)
      (pyStr "hello") (pyStr "casual") 0 1).calls = [] := by
  have h := unsupported_tone_fails_without_inference defaultGenerationConfig
    (successProvider (pyStr "x")) (LRUCache.empty 50 20) (pyStr "hello") (pyStr "casual") 0 1
    (by decide) rfl (by decide) (by decide)
  exact ⟨h.1, h.2.2⟩

/-- Counterexample to C4 as stated: `"Formal"` is a target tone other
    than `"formal"`, yet `change_tone` succeeds and invokes the provider,
    because the guard compares `target_tone.lower()`. -/
theorem unsupported_tone_counterexample :
    pyStr "Formal" ≠ pyStr "formal"
    ∧ (change_tone defaultGenerationConfig
        (successProvider (pyStr "We cordially extend greetings to everyone here"))
        (LRUCache.empty 50 20) (pyStr "hello world") (pyStr "Formal") 0 1).result.success = true
    ∧ (change_tone defaultGenerationConfig
        (successProvider (pyStr "We cordially extend greetings to everyone here"))
        (LRUCache.empty 50 20) (pyStr "hello world") (pyStr "Formal") 0 1).calls.length = 1 := by
  decide

/-- C5 (amended): for grammar correction and tone change, a provider
    reply that is empty or shorter than 30 percent of the input yields a
    failed result whose `processed_text` is the original input; for
    summarization the only rejection is a reply that is empty **after
    stripping whitespace** — a reply containing any non-whitespace
    character succeeds, regardless of length.  (A whitespace-only reply is
    non-empty yet rejected, see the counterexample.) -/
theorem response_length_validation
    (cfg : GenerationConfig) (cg cs ct : LRUCache PyStr) (text tone out : PyStr)
    (now : Nat) (elapsed : ℚ)
    (hv : validate_input text = true)
    (hgm : pyTruthy (cg.get (normalize_key text) now).1 = false)
    (hsm : pyTruthy (cs.get (normalize_key text) now).1 = false)
    (htm : pyTruthy (ct.get (toneKey text tone) now).1 = false)
    (htone : pyLower tone = pyStr "formal") :
    ((out = [] ∨ 10 * out.length < 3 * text.length) →
      ((fix_grammar cfg (successProvider out) cg text now elapsed).result.success = false
       ∧ (fix_grammar cfg (successProvider out) cg text now elapsed).result.processed_text = text
       ∧ (change_tone cfg (successProvider out) ct text tone now elapsed).result.success = false
       ∧ (change_tone cfg (successProvider out) ct text tone now elapsed).result.processed_text =
           text))
    ∧ (pyStrip out = [] →
        (summarize cfg (successProvider out) cs text now elapsed).result.success = false
        ∧ (summarize cfg (successProvider out) cs text now elapsed).result.processed_text = text)
    ∧ (pyStrip out ≠ [] →
        (summarize cfg (successProvider out) cs text now elapsed).result.success = true
        ∧ (summarize cfg (successProvider out) cs text now elapsed).result.processed_text =
            pyStrip out) := by
  refine ⟨?_, ?_, ?_⟩
  · intro hshort
    have hcond : ((pyStrip out).isEmpty || belowMinLength (pyStrip out) text) = true := by
      rcases hshort with he | hlt
      · rw [he, pyStrip_nil]
        rfl
      · have hle := pyStrip_length_le out
        rw [Bool.or_eq_true]
        right
        unfold belowMinLength
        rw [decide_eq_true_eq]
        omega
    refine ⟨?_, ?_, ?_, ?_⟩
    · simp [fix_grammar, grammarGenerate, successProvider, hv, hgm, hcond, create_error_result]
    · simp [fix_grammar, grammarGenerate, successProvider, hv, hgm, hcond, create_error_result]
    · simp [change_tone, toneGenerate, successProvider, hv, htm, htone, hcond,
        create_error_result]
    · simp [change_tone, toneGenerate, successProvider, hv, htm, htone, hcond,
        create_error_result]
  · intro hse
    have hcond : (pyStrip out).isEmpty = true := by simp [hse]
    constructor
    · simp [summarize, summaryGenerate, successProvider, hv, hsm, hcond, create_error_result]
    · simp [summarize, summaryGenerate, successProvider, hv, hsm, hcond, create_error_result]
  · intro hsne
    have hcond : (pyStrip out).isEmpty = false := by simp [hsne]
    constructor
    · simp [summarize, summaryGenerate, successProvider, hv, hsm, hcond]
    · simp [summarize, summaryGenerate, successProvider, hv, hsm, hcond]

/-- Witness for C5 (amended): a two-character reply to an eleven-character
    input is rejected by grammar correction with the input returned, while
    the same reply is accepted by summarization. -/
theorem response_length_validation_witness :
    ((fix_grammar defaultGenerationConfig (successProvider (pyStr "ok"))
        (LRUCache.empty 50 20) (pyStr "hello world") 0 1).result.success = false
     ∧ (fix_grammar defaultGenerationConfig (successProvider (pyStr "ok"))
        (LRUCache.empty 50 20) (pyStr "hello world") 0 1).result.processed_text =
          pyStr "hello world")
    ∧ (summarize defaultGenerationConfig (successProvider (pyStr "ok"))
        (LRUCache.empty 50 20) (pyStr "hello world") 0 1).result.success = true := by
  have h := response_length_validation defaultGenerationConfig
    (LRUCache.empty 50 20) (LRUCache.empty 50 20) (LRUCache.empty 50 20)
    (pyStr "hello world") (pyStr "formal") (pyStr "ok") 0 1
    (by decide) (by decide) (by decide) (by decide) (by decide)
  exact ⟨⟨(h.1 (Or.inr (by decide))).1, (h.1 (Or.inr (by decide))).2.1⟩,
    (h.2.2 (by decide)).1⟩

/-- Counterexample to C5 as stated: for summarization a whitespace-only
    reply is a non-empty output, yet it is rejected (the code strips the
    reply before the emptiness check), so not every non-empty output
    yields a success result. -/
theorem response_length_validation_counterexample :
    pyStr " " ≠ []
    ∧ (summarize defaultGenerationConfig (successProvider (pyStr " "))
        (LRUCache.empty 50 20) (pyStr "hello world") 0 1).result.success = false
    ∧ (summarize defaultGenerationConfig (successProvider (pyStr " "))
        (LRUCache.empty 50 20) (pyStr "hello world") 0 1).result.processed_text =
        pyStr "hello world" := by
  decide

/-- C7: with the default configuration, the provider is invoked exactly
    once on a cache miss and the `max_tokens` it receives is
    `max(100, 4*len(text))` for grammar correction,
    `min(200, max(100, len(text)))` for summarization, and
    `max(150, 2*len(text))` for tone change. -/
theorem default_max_tokens_formulas
    (provider : Provider) (cg cs ct : LRUCache PyStr) (text tone : PyStr)
    (now : Nat) (elapsed : ℚ)
    (hv : validate_input text = true) (hl : provider.loaded = true)
    (hgm : pyTruthy (cg.get (normalize_key text) now).1 = false)
    (hsm : pyTruthy (cs.get (normalize_key text) now).1 = false)
    (htm : pyTruthy (ct.get (toneKey text tone) now).1 = false)
    (htone : pyLower tone = pyStr "formal") :
    (fix_grammar defaultGenerationConfig provider cg text now elapsed).calls.map
        (fun c => c.max_tokens) = [max 100 (4 * text.length)]
    ∧ (summarize defaultGenerationConfig provider cs text now elapsed).calls.map
        (fun c => c.max_tokens) = [min 200 (max 100 text.length)]
    ∧ (change_tone defaultGenerationConfig provider ct text tone now elapsed).calls.map
        (fun c => c.max_tokens) = [max 150 (2 * text.length)] := by
  rw [(fix_grammar_miss_shape defaultGenerationConfig provider cg text now elapsed
        hv hl hgm).1,
      (summarize_miss_shape defaultGenerationConfig provider cs text now elapsed
        hv hl hsm).1,
      (change_tone_miss_shape defaultGenerationConfig provider ct text tone now elapsed
        hv hl htm htone).1]
  refine ⟨?_, ?_, ?_⟩
  · simp [grammarCall, defaultGenerationConfig, Nat.mul_comm]
  · simp [summaryCall, defaultGenerationConfig]
  · simp [toneCall, defaultGenerationConfig, Nat.mul_comm]

/-- Witness for C7 at a concrete input of length 40. -/
theorem default_max_tokens_formulas_witness :
    (fix_grammar defaultGenerationConfig (successProvider (pyStr "x"))
        (LRUCache.empty 50 20) (pyStr "abcdefghij abcdefghij abcdefghij abcdefg") 0 1).calls.map
        (fun c => c.max_tokens) = [160] := by
  have h := default_max_tokens_formulas (successProvider (pyStr "x"))
    (LRUCache.empty 50 20) (LRUCache.empty 50 20) (LRUCache.empty 50 20)
    (pyStr "abcdefghij abcdefghij abcdefghij abcdefg") (pyStr "formal") 0 1
    (by decide) rfl (by decide) (by decide) (by decide) (by decide)
  rw [h.1]
  decide

/-- C10: for every variant, a cached value equal to the empty string is
    treated as a miss: the call is not served from the cache and the
    provider is invoked exactly once (for tone change under the supported
    formal target, which is also `process_text`'s default). -/
theorem empty_cached_value_treated_as_miss
    (cfg : GenerationConfig) (provider : Provider) (cg cs ct : LRUCache PyStr)
    (text tone : PyStr) (now : Nat) (elapsed : ℚ) (eg es et : CacheEntry PyStr)
    (hv : validate_input text = true) (hl : provider.loaded = true)
    (hg : dictGet cg.cache (normalize_key text) = some eg) (hge : eg.value = [])
    (hs : dictGet cs.cache (normalize_key text) = some es) (hse : es.value = [])
    (ht : dictGet ct.cache (toneKey text tone) = some et) (hte : et.value = [])
    (htone : pyLower tone = pyStr "formal") :
    ((fix_grammar cfg provider cg text now elapsed).calls = [grammarCall cfg text]
      ∧ (fix_grammar cfg provider cg text now elapsed).result.from_cache ≠ some true)
    ∧ ((summarize cfg provider cs text now elapsed).calls = [summaryCall cfg text]
      ∧ (summarize cfg provider cs text now elapsed).result.from_cache ≠ some true)
    ∧ ((change_tone cfg provider ct text tone now elapsed).calls = [toneCall cfg text]
      ∧ (change_tone cfg provider ct text tone now elapsed).result.from_cache ≠ some true) := by
  have hgm : pyTruthy (cg.get (normalize_key text) now).1 = false := by
    rw [get_fst, hg]
    show pyTruthy (some eg.value) = false
    rw [hge]
    rfl
  have hsm : pyTruthy (cs.get (normalize_key text) now).1 = false := by
    rw [get_fst, hs]
    show pyTruthy (some es.value) = false
    rw [hse]
    rfl
  have htm : pyTruthy (ct.get (toneKey text tone) now).1 = false := by
    rw [get_fst, ht]
    show pyTruthy (some et.value) = false
    rw [hte]
    rfl
  exact ⟨fix_grammar_miss_shape cfg provider cg text now elapsed hv hl hgm,
    summarize_miss_shape cfg provider cs text now elapsed hv hl hsm,
    change_tone_miss_shape cfg provider ct text tone now elapsed hv hl htm htone⟩

/-- Witness for C10: with the empty string cached under the key for
    `"hi"`, the grammar processor still makes one generate call. -/
theorem empty_cached_value_treated_as_miss_witness :
    (fix_grammar defaultGenerationConfig (successProvider (pyStr "hello there okay"))
        emptyValueCache (pyStr "hi") 1 1).calls =
      [grammarCall defaultGenerationConfig (pyStr "hi")] := by
  have h := empty_cached_value_treated_as_miss defaultGenerationConfig
    (successProvider (pyStr "hello there okay")) emptyValueCache emptyValueCache
    emptyValueCacheTone (pyStr "hi") (pyStr "formal") 1 1
    { value := [], created_at := 0, access_count := 0, last_accessed := 0 }
    { value := [], created_at := 0, access_count := 0, last_accessed := 0 }
    { value := [], created_at := 0, access_count := 0, last_accessed := 0 }
    (by decide) rfl (by decide) rfl (by decide) rfl (by decide) rfl (by decide)
  exact h.1.1

/-- Provider behaviours whose fault message is itself empty: a reply dict
    with `success=False` and an empty `error` string, or a raised
    exception whose `str(e)` is empty.  The processors copy these strings
    verbatim into `error_message`. -/
def outcomeEmptyError : GenOutcome → Prop
  | .raises msg => msg = []
  | .answers resp => resp.success = false ∧ resp.error = []

lemma fix_grammar_failure_spec (cfg : GenerationConfig) (provider : Provider)
    (cache : LRUCache PyStr) (text : PyStr) (now : Nat) (elapsed : ℚ)
    (hfail : (fix_grammar cfg provider cache text now elapsed).result.success = false) :
    (fix_grammar cfg provider cache text now elapsed).result.original_text = text
    ∧ (fix_grammar cfg provider cache text now elapsed).result.processed_text = text
    ∧ entriesView (fix_grammar cfg provider cache text now elapsed).cache = entriesView cache
    ∧ ∃ msg, (fix_grammar cfg provider cache text now elapsed).result.error_message = some msg
        ∧ (msg ≠ [] ∨ outcomeEmptyError provider.outcome) := by
  obtain ⟨pl, po⟩ := provider
  by_cases hv : validate_input text
  case neg =>
    have heq : fix_grammar cfg ⟨pl, po⟩ cache text now elapsed =
        ⟨create_error_result text (pyStr "Invalid input text"), cache, []⟩ := by
      simp [fix_grammar, hv]
    rw [heq]
    exact ⟨rfl, rfl, rfl, pyStr "Invalid input text", rfl, Or.inl (by decide)⟩
  case pos =>
  by_cases hl : pl
  case neg =>
    have hl' : pl = false := by revert hl; cases pl <;> simp
    have heq : fix_grammar cfg ⟨pl, po⟩ cache text now elapsed =
        ⟨create_error_result text (pyStr "Grammar corrector not available"), cache, []⟩ := by
      simp [fix_grammar, hv, hl']
    rw [heq]
    exact ⟨rfl, rfl, rfl, pyStr "Grammar corrector not available", rfl, Or.inl (by decide)⟩
  case pos =>
  have hl' : pl = true := hl
  subst hl'
  by_cases hhit : pyTruthy (cache.get (normalize_key text) now).1
  case pos =>
    have hsucc : (fix_grammar cfg ⟨true, po⟩ cache text now elapsed).result.success = true := by
      simp [fix_grammar, hv, hhit]
    exact absurd (hsucc.symm.trans hfail) (by decide)
  case neg =>
  cases po with
  | raises msg =>
    have heq : fix_grammar cfg ⟨true, .raises msg⟩ cache text now elapsed =
        ⟨create_error_result text msg, (cache.get (normalize_key text) now).2,
         [grammarCall cfg text]⟩ := by
      simp [fix_grammar, grammarGenerate, hv, hhit]
    rw [heq]
    refine ⟨rfl, rfl, entriesView_get cache (normalize_key text) now, msg, rfl, ?_⟩
    rcases eq_or_ne msg [] with hm | hm
    · exact Or.inr hm
    · exact Or.inl hm
  | answers resp =>
    by_cases hrs : resp.success
    case neg =>
      have hrs' : resp.success = false := by revert hrs; cases resp.success <;> simp
      have heq : fix_grammar cfg ⟨true, .answers resp⟩ cache text now elapsed =
          ⟨create_error_result text resp.error, (cache.get (normalize_key text) now).2,
           [grammarCall cfg text]⟩ := by
        simp [fix_grammar, grammarGenerate, hv, hhit, hrs']
      rw [heq]
      refine ⟨rfl, rfl, entriesView_get cache (normalize_key text) now, resp.error, rfl, ?_⟩
      rcases eq_or_ne resp.error [] with hm | hm
      · exact Or.inr ⟨hrs', hm⟩
      · exact Or.inl hm
    case pos =>
      by_cases hcond : ((pyStrip resp.text).isEmpty || belowMinLength (pyStrip resp.text) text)
      case pos =>
        have heq : fix_grammar cfg ⟨true, .answers resp⟩ cache text now elapsed =
            ⟨create_error_result text (pyStr "Invalid response from model"),
             (cache.get (normalize_key text) now).2, [grammarCall cfg text]⟩ := by
          simp [fix_grammar, grammarGenerate, hv, hhit, hrs, hcond]
        rw [heq]
        exact ⟨rfl, rfl, entriesView_get cache (normalize_key text) now,
          pyStr "Invalid response from model", rfl, Or.inl (by decide)⟩
      case neg =>
        have hsucc : (fix_grammar cfg ⟨true, .answers resp⟩ cache text now
            elapsed).result.success = true := by
          simp [fix_grammar, grammarGenerate, hv, hhit, hrs, hcond]
        exact absurd (hsucc.symm.trans hfail) (by decide)

lemma summarize_failure_spec (cfg : GenerationConfig) (provider : Provider)
    (cache : LRUCache PyStr) (text : PyStr) (now : Nat) (elapsed : ℚ)
    (hfail : (summarize cfg provider cache text now elapsed).result.success = false) :
    (summarize cfg provider cache text now elapsed).result.original_text = text
    ∧ (summarize cfg provider cache text now elapsed).result.processed_text = text
    ∧ entriesView (summarize cfg provider cache text now elapsed).cache = entriesView cache
    ∧ ∃ msg, (summarize cfg provider cache text now elapsed).result.error_message = some msg
        ∧ (msg ≠ [] ∨ outcomeEmptyError provider.outcome) := by
  obtain ⟨pl, po⟩ := provider
  by_cases hv : validate_input text
  case neg =>
    have heq : summarize cfg ⟨pl, po⟩ cache text now elapsed =
        ⟨create_error_result text (pyStr "Invalid input text"), cache, []⟩ := by
      simp [summarize, hv]
    rw [heq]
    exact ⟨rfl, rfl, rfl, pyStr "Invalid input text", rfl, Or.inl (by decide)⟩
  case pos =>
  by_cases hl : pl
  case neg =>
    have hl' : pl = false := by revert hl; cases pl <;> simp
    have heq : summarize cfg ⟨pl, po⟩ cache text now elapsed =
        ⟨create_error_result text (pyStr "Text summarizer not available"), cache, []⟩ := by
      simp [summarize, hv, hl']
    rw [heq]
    exact ⟨rfl, rfl, rfl, pyStr "Text summarizer not available", rfl, Or.inl (by decide)⟩
  case pos =>
  have hl' : pl = true := hl
  subst hl'
  by_cases hhit : pyTruthy (cache.get (normalize_key text) now).1
  case pos =>
    have hsucc : (summarize cfg ⟨true, po⟩ cache text now elapsed).result.success = true := by
      simp [summarize, hv, hhit]
    exact absurd (hsucc.symm.trans hfail) (by decide)
  case neg =>
  cases po with
  | raises msg =>
    have heq : summarize cfg ⟨true, .raises msg⟩ cache text now elapsed =
        ⟨create_error_result text msg, (cache.get (normalize_key text) now).2,
         [summaryCall cfg text]⟩ := by
      simp [summarize, summaryGenerate, hv, hhit]
    rw [heq]
    refine ⟨rfl, rfl, entriesView_get cache (normalize_key text) now, msg, rfl, ?_⟩
    rcases eq_or_ne msg [] with hm | hm
    · exact Or.inr hm
    · exact Or.inl hm
  | answers resp =>
    by_cases hrs : resp.success
    case neg =>
      have hrs' : resp.success = false := by revert hrs; cases resp.success <;> simp
      have heq : summarize cfg ⟨true, .answers resp⟩ cache text now elapsed =
          ⟨create_error_result text resp.error, (cache.get (normalize_key text) now).2,
           [summaryCall cfg text]⟩ := by
        simp [summarize, summaryGenerate, hv, hhit, hrs']
      rw [heq]
      refine ⟨rfl, rfl, entriesView_get cache (normalize_key text) now, resp.error, rfl, ?_⟩
      rcases eq_or_ne resp.error [] with hm | hm
      · exact Or.inr ⟨hrs', hm⟩
      · exact Or.inl hm
    case pos =>
      by_cases hcond : (pyStrip resp.text).isEmpty
      case pos =>
        have heq : summarize cfg ⟨true, .answers resp⟩ cache text now elapsed =
            ⟨create_error_result text (pyStr "Empty summary response"),
             (cache.get (normalize_key text) now).2, [summaryCall cfg text]⟩ := by
          simp [summarize, summaryGenerate, hv, hhit, hrs, hcond]
        rw [heq]
        exact ⟨rfl, rfl, entriesView_get cache (normalize_key text) now,
          pyStr "Empty summary response", rfl, Or.inl (by decide)⟩
      case neg =>
        have hsucc : (summarize cfg ⟨true, .answers resp⟩ cache text now
            elapsed).result.success = true := by
          simp [summarize, summaryGenerate, hv, hhit, hrs, hcond]
        exact absurd (hsucc.symm.trans hfail) (by decide)

lemma change_tone_failure_spec (cfg : GenerationConfig) (provider : Provider)
    (cache : LRUCache PyStr) (text tone : PyStr) (now : Nat) (elapsed : ℚ)
    (hfail : (change_tone cfg provider cache text tone now elapsed).result.success = false) :
    (change_tone cfg provider cache text tone now elapsed).result.original_text = text
    ∧ (change_tone cfg provider cache text tone now elapsed).result.processed_text = text
    ∧ entriesView (change_tone cfg provider cache text tone now elapsed).cache =
        entriesView cache
    ∧ ∃ msg, (change_tone cfg provider cache text tone now elapsed).result.error_message =
          some msg
        ∧ (msg ≠ [] ∨ outcomeEmptyError provider.outcome) := by
  obtain ⟨pl, po⟩ := provider
  by_cases hv : validate_input text
  case neg =>
    have heq : change_tone cfg ⟨pl, po⟩ cache text tone now elapsed =
        ⟨create_error_result text (pyStr "Invalid input text"), cache, []⟩ := by
      simp [change_tone, hv]
    rw [heq]
    exact ⟨rfl, rfl, rfl, pyStr "Invalid input text", rfl, Or.inl (by decide)⟩
  case pos =>
  by_cases hl : pl
  case neg =>
    have hl' : pl = false := by revert hl; cases pl <;> simp
    have heq : change_tone cfg ⟨pl, po⟩ cache text tone now elapsed =
        ⟨create_error_result text (pyStr "Tone changer not available"), cache, []⟩ := by
      simp [change_tone, hv, hl']
    rw [heq]
    exact ⟨rfl, rfl, rfl, pyStr "Tone changer not available", rfl, Or.inl (by decide)⟩
  case pos =>
  have hl' : pl = true := hl
  subst hl'
  by_cases hhit : pyTruthy (cache.get (toneKey text tone) now).1
  case pos =>
    have hsucc : (change_tone cfg ⟨true, po⟩ cache text tone now
        elapsed).result.success = true := by
      simp [change_tone, hv, hhit]
    exact absurd (hsucc.symm.trans hfail) (by decide)
  case neg =>
  by_cases htone : pyLower tone = pyStr "formal"
  case neg =>
    have heq : change_tone cfg ⟨true, po⟩ cache text tone now elapsed =
        ⟨create_error_result text (pyStr "Unsupported tone: " ++ tone),
         (cache.get (toneKey text tone) now).2, []⟩ := by
      simp [change_tone, hv, hhit, htone]
    rw [heq]
    refine ⟨rfl, rfl, entriesView_get cache (toneKey text tone) now,
      pyStr "Unsupported tone: " ++ tone, rfl, Or.inl ?_⟩
    intro hnil
    exact absurd (List.append_eq_nil.mp hnil).1 (by decide)
  case pos =>
  cases po with
  | raises msg =>
    have heq : change_tone cfg ⟨true, .raises msg⟩ cache text tone now elapsed =
        ⟨create_error_result text msg, (cache.get (toneKey text tone) now).2,
         [toneCall cfg text]⟩ := by
      simp [change_tone, toneGenerate, hv, hhit, htone]
    rw [heq]
    refine ⟨rfl, rfl, entriesView_get cache (toneKey text tone) now, msg, rfl, ?_⟩
    rcases eq_or_ne msg [] with hm | hm
    · exact Or.inr hm
    · exact Or.inl hm
  | answers resp =>
    by_cases hrs : resp.success
    case neg =>
      have hrs' : resp.success = false := by revert hrs; cases resp.success <;> simp
      have heq : change_tone cfg ⟨true, .answers resp⟩ cache text tone now elapsed =
          ⟨create_error_result text resp.error, (cache.get (toneKey text tone) now).2,
           [toneCall cfg text]⟩ := by
        simp [change_tone, toneGenerate, hv, hhit, htone, hrs']
      rw [heq]
      refine ⟨rfl, rfl, entriesView_get cache (toneKey text tone) now, resp.error, rfl, ?_⟩
      rcases eq_or_ne resp.error [] with hm | hm
      · exact Or.inr ⟨hrs', hm⟩
      · exact Or.inl hm
    case pos =>
      by_cases hcond : ((pyStrip resp.text).isEmpty || belowMinLength (pyStrip resp.text) text)
      case pos =>
        have heq : change_tone cfg ⟨true, .answers resp⟩ cache text tone now elapsed =
            ⟨create_error_result text (pyStr "Invalid tone change response"),
             (cache.get (toneKey text tone) now).2, [toneCall cfg text]⟩ := by
          simp [change_tone, toneGenerate, hv, hhit, htone, hrs, hcond]
        rw [heq]
        exact ⟨rfl, rfl, entriesView_get cache (toneKey text tone) now,
          pyStr "Invalid tone change response", rfl, Or.inl (by decide)⟩
      case neg =>
        have hsucc : (change_tone cfg ⟨true, .answers resp⟩ cache text tone now
            elapsed).result.success = true := by
          simp [change_tone, toneGenerate, hv, hhit, htone, hrs, hcond]
        exact absurd (hsucc.symm.trans hfail) (by decide)

/-- Loaded provider whose reply dict reports failure with an empty error
    string. -/
def emptyErrorProvider : Provider :=
  { loaded := true, outcome := .answers { success := false, text := [], error := [] } }

/-- C6 (amended): every error inside a processor invocation is returned
    as a failed `TextProcessingResult` rather than an exception (the
    model's functions are total); every failed result carries the original
    input unchanged in both `original_text` and `processed_text`; a failed
    invocation writes no cache entry (the keys and stored values of the
    cache are untouched, only hit metadata of an already present entry may
    refresh); and the `error_message` is set and non-empty on every path
    except that a provider fault whose own error text (or raised
    exception's message) is empty is copied verbatim, producing an empty
    message. -/
theorem failures_keep_input_and_write_no_entry
    (cfg : GenerationConfig) (provider : Provider) (cg cs ct : LRUCache PyStr)
    (text tone : PyStr) (now : Nat) (elapsed : ℚ) :
    ((fix_grammar cfg provider cg text now elapsed).result.success = false →
      (fix_grammar cfg provider cg text now elapsed).result.original_text = text
      ∧ (fix_grammar cfg provider cg text now elapsed).result.processed_text = text
      ∧ entriesView (fix_grammar cfg provider cg text now elapsed).cache = entriesView cg
      ∧ ∃ msg, (fix_grammar cfg provider cg text now elapsed).result.error_message = some msg
          ∧ (msg ≠ [] ∨ outcomeEmptyError provider.outcome))
    ∧ ((summarize cfg provider cs text now elapsed).result.success = false →
      (summarize cfg provider cs text now elapsed).result.original_text = text
      ∧ (summarize cfg provider cs text now elapsed).result.processed_text = text
      ∧ entriesView (summarize cfg provider cs text now elapsed).cache = entriesView cs
      ∧ ∃ msg, (summarize cfg provider cs text now elapsed).result.error_message = some msg
          ∧ (msg ≠ [] ∨ outcomeEmptyError provider.outcome))
    ∧ ((change_tone cfg provider ct text tone now elapsed).result.success = false →
      (change_tone cfg provider ct text tone now elapsed).result.original_text = text
      ∧ (change_tone cfg provider ct text tone now elapsed).result.processed_text = text
      ∧ entriesView (change_tone cfg provider ct text tone now elapsed).cache = entriesView ct
      ∧ ∃ msg, (change_tone cfg provider ct text tone now elapsed).result.error_message =
            some msg
          ∧ (msg ≠ [] ∨ outcomeEmptyError provider.outcome)) :=
  ⟨fun h => fix_grammar_failure_spec cfg provider cg text now elapsed h,
   fun h => summarize_failure_spec cfg provider cs text now elapsed h,
   fun h => change_tone_failure_spec cfg provider ct text tone now elapsed h⟩

/-- Witness for C6 (amended) at a concrete failing invocation (provider
    not loaded): the failed result keeps the input in both text fields. -/
theorem failures_keep_input_and_write_no_entry_witness :
    (fix_grammar defaultGenerationConfig
      { loaded := false, outcome := .answers { success := true, text := [], error := [] } }
      (LRUCache.empty 50 20) (pyStr "hello") 0 1).result.processed_text = pyStr "hello" :=
  ((failures_keep_input_and_write_no_entry defaultGenerationConfig
      { loaded := false, outcome := .answers { success := true, text := [], error := [] } }
      (LRUCache.empty 50 20) (LRUCache.empty 50 20) (LRUCache.empty 50 20)
      (pyStr "hello") (pyStr "formal") 0 1).1 (by decide)).2.1

/-- Counterexample to C6 as stated: a provider failure whose own error
    string is empty yields a failed result whose `error_message` is the
    empty string, not a non-empty one. -/
theorem failures_counterexample :
    (fix_grammar defaultGenerationConfig emptyErrorProvider (LRUCache.empty 50 20)
      (pyStr "hello") 0 1).result.success = false
    ∧ (fix_grammar defaultGenerationConfig emptyErrorProvider (LRUCache.empty 50 20)
      (pyStr "hello") 0 1).result.error_message = some [] := by
  decide
